import Mathlib

/-!
Shallow embedding of the resync client core (uweschmitt/resync).

The repository ships only its test suite (`resync/test/test_client.py`) and a
README example under `src/`; the implementation modules `resync/client.py`,
`resync/mapper.py`, `resync/resource.py` etc. are not present.  Every
operational definition below is therefore modelled from the specification
(spec.md sections 3, 4, 7, 8), constrained by the observable behaviour the
test suite pins down (log-line formats, which calls raise, flag updates).
-/

set_option maxHeartbeats 1000000

deriving instance DecidableEq for Except

namespace Resync

/-- Modelled from the spec: the `changeKind` enum of a Resource
(created | updated | deleted), meaningful inside a ChangeList. -/
inductive ChangeKind where
  | created
  | updated
  | deleted
deriving DecidableEq, Repr

/-- Modelled from the spec: the Resource value type of the missing
`resync/resource.py`.  Optional fields are explicit `Option`s, never
sentinels, so "unknown" cannot be confused with a value. -/
structure Resource where
  uri : String
  lastmod : Option String := none
  length : Option Nat := none
  md5 : Option String := none
  changeKind : Option ChangeKind := none
  changeDatetime : Option String := none
deriving DecidableEq, Repr

/-- Drop every trailing '/' from a root string (the Map normalization the
missing `resync/mapper.py` applies when a mapping is stored). -/
def stripTrailingSlashes (s : String) : String :=
  String.mk ((s.toList.reverse.dropWhile (fun ch => ch == '/')).reverse)

/-- Modelled from the spec: a Mapping is an ordered pair (uriRoot, pathRoot),
stored with trailing slashes stripped. -/
structure Mapping where
  uriRoot : String
  pathRoot : String
deriving DecidableEq, Repr

/-- Build a Mapping from raw root strings, normalizing both. -/
def Mapping.make (u p : String) : Mapping :=
  ⟨stripTrailingSlashes u, stripTrailingSlashes p⟩

/-- True when `a` equals `b` or `b` lives strictly under `a` as a path
segment (so `testdata/dir1` does not count as sitting above
`testdata/dir1_src_in_sync`). -/
def segAbove (a b : String) : Bool :=
  a == b || (a ++ "/").toList.isPrefixOf b.toList

/-- Modelled from the spec: a mapping is unsafe when the two roots are
identical or one is nested inside the other after normalization. -/
def Mapping.notSafe (m : Mapping) : Bool :=
  segAbove m.uriRoot m.pathRoot || segAbove m.pathRoot m.uriRoot

/-- Modelled from the spec: the state the Client holds for a run — the active
mappings and the configuration flags (checksum mode, the no-auth-check
override, the pagination threshold). -/
structure Client where
  mappings : List Mapping := []
  checksum : Bool := false
  noAuthCheck : Bool := false
  max_sitemap_entries : Option Nat := none
deriving DecidableEq, Repr

/-- A freshly constructed Client: no mappings, all options off. -/
def Client.init : Client := {}

/-- Modelled from the spec and test02/test05: `set_mappings` stores the
(normalized) pair as the single active mapping.  It performs no safety
validation — the tests install `['/tmp','/tmp']` without an exception. -/
def Client.set_mappings (c : Client) (uriRoot pathRoot : String) : Client :=
  { c with mappings := [Mapping.make uriRoot pathRoot] }

/-- The fatal, terminal error kind of the client (ClientFatalError). -/
structure ClientFatalError where
  msg : String
deriving DecidableEq, Repr

/-- The Mapper-level resolution error kind (MapperError). -/
structure MapperError where
  msg : String
deriving DecidableEq, Repr

/-- True when `ch` may appear in a URI scheme word. -/
def isWordChar (ch : Char) : Bool :=
  ch.isAlphanum || ch == '_'

/-- True when the string starts with a nonempty scheme word followed by ':'
(the `\w+:` test of the missing `Client.sitemap_uri`). -/
def looksLikeUri (s : String) : Bool :=
  let w := s.toList.takeWhile isWordChar
  !w.isEmpty && ((s.toList.drop w.length).head? == some ':')

/-- Modelled from the spec: `resolveReference` — absolute URIs and absolute
local paths pass through unchanged; a relative name needs an active mapping
(else MapperError) and resolves against the first mapping's uriRoot. -/
def Client.sitemap_uri (c : Client) (basename : String) : Except MapperError String :=
  if looksLikeUri basename then .ok basename
  else if basename.toList.head? == some '/' then .ok basename
  else match c.mappings with
    | [] => .error ⟨"Unable to map basename, no mappings defined"⟩
    | m :: _ => .ok (m.uriRoot ++ "/" ++ basename)

/-- Split a character list at the first "://" marker, returning the scheme
part and the remainder. -/
def splitSchemeMark : List Char → Option (List Char × List Char)
  | [] => none
  | ':' :: '/' :: '/' :: rest => some ([], rest)
  | ch :: rest =>
    match splitSchemeMark rest with
    | some (pre, post) => some (ch :: pre, post)
    | none => none

/-- The scheme+host authority of a URI, `none` for a local path. -/
def uriAuthority (u : String) : Option String :=
  match splitSchemeMark u.toList with
  | some (sch, rest) =>
    some (String.mk sch ++ "://" ++ String.mk (rest.takeWhile (fun ch => ch != '/')))
  | none => none

/-- True when the two URIs share a scheme+host authority. -/
def sameAuthority (u root : String) : Bool :=
  uriAuthority u == uriAuthority root

/-- True when some resource of the list carries a checksum. -/
def hasMd5 (l : List Resource) : Bool :=
  l.any (fun r => r.md5.isSome)

/-- Structured log stream: info, warning and status lines. -/
inductive LogLine where
  | info (msg : String)
  | warning (msg : String)
  | status (msg : String)
deriving DecidableEq, Repr

/-- The status lines of a log, in order. -/
def statusLines (log : List LogLine) : List String :=
  log.filterMap (fun l => match l with | .status s => some s | _ => none)

/-- The pre-apply (audit-phase) status line: planned actions are worded
"to create" / "to update" / "to delete", as test06 asserts. -/
def auditStatusLine (q : String) (s c u d : Nat) : String :=
  "Status: " ++ q ++ " (same=" ++ toString s ++ ", to create=" ++ toString c ++
    ", to update=" ++ toString u ++ ", to delete=" ++ toString d ++ ")"

/-- The post-apply status line: applied actions are worded
"created" / "updated" / "deleted", as test06 asserts. -/
def applyStatusLine (q : String) (s c u d : Nat) : String :=
  "Status: " ++ q ++ " (same=" ++ toString s ++ ", created=" ++ toString c ++
    ", updated=" ++ toString u ++ ", deleted=" ++ toString d ++ ")"

/-- The change-list read report of `incremental`. -/
def changeListReadLine (n : Nat) : String :=
  "Read source change list, " ++ toString n ++ " changes listed"

/-- The status line of `incremental`. -/
def incStatusLine (c u d : Nat) : String :=
  "Status: CHANGES APPLIED (created=" ++ toString c ++ ", updated=" ++ toString u ++
    ", deleted=" ++ toString d ++ ")"

/-- The cross-domain warning logged under the no-auth-check override. -/
def authWarnLine (u : String) : String :=
  "Including resource from another domain: " ++ u

/-- Modelled from the spec: the source/destination pair one baseline or audit
run observes — the source list as fetched (or `none` when the mapped source
root does not resolve) and the destination's current contents. -/
structure World where
  srcList : Option (List Resource)
  dstList : List Resource
deriving DecidableEq, Repr

/-- The per-run counts of a baseline/audit SyncSummary. -/
structure SyncSummary where
  same : Nat
  created : Nat
  updated : Nat
  deleted : Nat
deriving DecidableEq, Repr

/-- Everything one baseline/audit run returns: the Client with its possibly
degraded checksum flag, the destination contents after the run, the summary
and the log. -/
structure BaselineOutcome where
  client : Client
  dst : List Resource
  summary : SyncSummary
  log : List LogLine
deriving DecidableEq, Repr

/-- First resource of the list carrying the given uri. -/
def findRes (l : List Resource) (u : String) : Option Resource :=
  l.find? (fun r => r.uri == u)

/-- Modelled from the spec: two matched resources differ (are "updated") when
both carry a checksum in checksum mode and the checksums differ — checksum is
authoritative over lastmod — and otherwise exactly when lastmod differs. -/
def resourcesDiffer (useChecksum : Bool) (src dst : Resource) : Bool :=
  if useChecksum && src.md5.isSome && dst.md5.isSome then src.md5 != dst.md5
  else src.lastmod != dst.lastmod

/-- The three-way classification of the DiffEngine. -/
structure DiffResult where
  same : List Resource
  created : List Resource
  updated : List Resource
  deleted : List Resource
deriving DecidableEq, Repr

/-- Modelled from the spec: classify by uri — created = only in source,
deleted = only in destination, matched uris split into updated/same by
`resourcesDiffer`. -/
def computeDiff (useChecksum : Bool) (src dst : List Resource) : DiffResult :=
  { same := src.filter (fun r => match findRes dst r.uri with
      | some d => !resourcesDiffer useChecksum r d
      | none => false)
    created := src.filter (fun r => (findRes dst r.uri).isNone)
    updated := src.filter (fun r => match findRes dst r.uri with
      | some d => resourcesDiffer useChecksum r d
      | none => false)
    deleted := dst.filter (fun r => (findRes src r.uri).isNone) }

/-- Create-or-overwrite one resource in the destination. -/
def upsert (dst : List Resource) (r : Resource) : List Resource :=
  if (findRes dst r.uri).isSome then
    dst.map (fun d => if d.uri == r.uri then r else d)
  else dst ++ [r]

/-- Remove-if-present by uri (idempotent). -/
def removeUri (dst : List Resource) (u : String) : List Resource :=
  dst.filter (fun d => d.uri != u)

/-- Modelled from the spec: materialize a classified diff — remove deleted
resources when deletion is allowed, overwrite updated ones, copy created
ones. -/
def applyBaseline (dst : List Resource) (d : DiffResult) (allow_deletion : Bool) :
    List Resource :=
  d.created.foldl upsert
    (d.updated.foldl upsert
      (if allow_deletion then d.deleted.foldl (fun acc r => removeUri acc r.uri) dst
       else dst))

/-- Modelled from the spec (section 4.4) and test05/test06:
`baseline_or_audit` — fatal when no mapping is set, when the mapping is
unsafe, when the source root does not resolve, or when both lists are empty
in non-audit mode; degrades the checksum flag when the source list carries no
checksums; logs the audit-phase status line; in non-audit mode with pending
changes it enforces the cross-domain policy, applies the delta and logs the
post-apply status line. -/
def Client.baseline_or_audit (c : Client) (w : World)
    (audit_only : Bool := false) (allow_deletion : Bool := false) :
    Except ClientFatalError BaselineOutcome :=
  match c.mappings with
  | [] => .error ⟨"No source to destination mapping specified"⟩
  | m :: _ =>
    if m.notSafe then .error ⟨"Source to destination mappings unsafe"⟩
    else match w.srcList with
      | none => .error ⟨"Can not read source resource list"⟩
      | some src =>
        let cs := c.checksum && hasMd5 src
        let c2 : Client := { c with checksum := cs }
        let dst := w.dstList
        if src.isEmpty && dst.isEmpty && !audit_only then
          .error ⟨"No resources to sync"⟩
        else
          let d := computeDiff cs src dst
          let pending := d.created.length + d.updated.length + d.deleted.length
          let line1 := LogLine.status (auditStatusLine
            (if pending == 0 then "IN SYNC" else "NOT IN SYNC")
            d.same.length d.created.length d.updated.length d.deleted.length)
          if audit_only || pending == 0 then
            .ok ⟨c2, dst,
                 ⟨d.same.length, d.created.length, d.updated.length, d.deleted.length⟩,
                 [line1]⟩
          else
            let ext := (d.created ++ d.updated).filter
              (fun r => !sameAuthority r.uri m.uriRoot)
            if !ext.isEmpty && !c.noAuthCheck then
              .error ⟨"Aborting since resources in other domain"⟩
            else
              let warns := ext.map (fun r => LogLine.warning (authWarnLine r.uri))
              let dst2 := applyBaseline dst d allow_deletion
              let nDel := if allow_deletion then d.deleted.length else 0
              let remaining := if allow_deletion then 0 else d.deleted.length
              let line2 := LogLine.status (applyStatusLine
                (if remaining == 0 then "SYNCED" else "NOT IN SYNC")
                d.same.length d.created.length d.updated.length nDel)
              .ok ⟨c2, dst2,
                   ⟨d.same.length, d.created.length, d.updated.length, nDel⟩,
                   line1 :: (warns ++ [line2])⟩

/-- Modelled from the spec: the change list as fetchable for an incremental
run, plus the destination's current contents. -/
structure IncWorld where
  changeList : List Resource
  dstList : List Resource
deriving DecidableEq, Repr

/-- Outcome of one incremental run. -/
structure IncOutcome where
  dst : List Resource
  changesListed : Nat
  created : Nat
  updated : Nat
  deleted : Nat
  log : List LogLine
deriving DecidableEq, Repr

/-- Change timestamp used for ordering (empty when absent). -/
def dtOf (r : Resource) : String :=
  r.changeDatetime.getD ""

/-- Lexicographic less-or-equal on character lists, by code point. -/
def charsLe : List Char → List Char → Bool
  | [], _ => true
  | _ :: _, [] => false
  | x :: xs, y :: ys =>
    if x.toNat < y.toNat then true
    else if y.toNat < x.toNat then false
    else charsLe xs ys

/-- Lexicographic less-or-equal on strings (the order of ISO timestamps). -/
def strLe (a b : String) : Bool :=
  charsLe a.toList b.toList

/-- Modelled from the spec: the fetch keeps the change events that occurred
at or after `from_datetime`. -/
def fetchChanges (changes : List Resource) (from_datetime : String) : List Resource :=
  changes.filter (fun r => match r.changeDatetime with
    | some t => strLe from_datetime t
    | none => false)

/-- The changeDatetime ordering of change entries. -/
def dtLe (a b : Resource) : Prop :=
  strLe (dtOf a) (dtOf b) = true

instance : DecidableRel dtLe :=
  fun a b => inferInstanceAs (Decidable (strLe (dtOf a) (dtOf b) = true))

instance : IsTotal Resource dtLe := by
  constructor
  intro a b
  show charsLe (dtOf a).toList (dtOf b).toList = true ∨
    charsLe (dtOf b).toList (dtOf a).toList = true
  generalize (dtOf a).toList = l1
  generalize (dtOf b).toList = l2
  induction l1 generalizing l2 with
  | nil =>
    left
    rfl
  | cons x xt ih =>
    cases l2 with
    | nil =>
      right
      rfl
    | cons y yt =>
      unfold charsLe
      by_cases h1 : x.toNat < y.toNat
      · left
        rw [if_pos h1]
      · by_cases h2 : y.toNat < x.toNat
        · right
          rw [if_pos h2]
        · rw [if_neg h1, if_neg h2, if_neg h2, if_neg h1]
          exact ih yt

instance : IsTrans Resource dtLe := by
  constructor
  intro a b c h1 h2
  rw [show dtLe a b = (charsLe (dtOf a).toList (dtOf b).toList = true) from rfl] at h1
  rw [show dtLe b c = (charsLe (dtOf b).toList (dtOf c).toList = true) from rfl] at h2
  show charsLe (dtOf a).toList (dtOf c).toList = true
  generalize hg1 : (dtOf a).toList = l1 at h1 ⊢
  generalize hg2 : (dtOf b).toList = l2 at h1 h2
  generalize hg3 : (dtOf c).toList = l3 at h2 ⊢
  clear hg1 hg2 hg3
  induction l1 generalizing l2 l3 with
  | nil => rfl
  | cons x xt ih =>
    cases l2 with
    | nil => exact absurd h1 (by unfold charsLe; exact Bool.false_ne_true)
    | cons y yt =>
      cases l3 with
      | nil => exact absurd h2 (by unfold charsLe; exact Bool.false_ne_true)
      | cons z zt =>
        unfold charsLe at h1 h2 ⊢
        by_cases hxy : x.toNat < y.toNat
        · by_cases hyz : y.toNat < z.toNat
          · rw [if_pos (show x.toNat < z.toNat by omega)]
          · by_cases hzy : z.toNat < y.toNat
            · rw [if_neg hyz, if_pos hzy] at h2
              exact absurd h2 Bool.false_ne_true
            · rw [if_pos (show x.toNat < z.toNat by omega)]
        · by_cases hyx : y.toNat < x.toNat
          · rw [if_neg hxy, if_pos hyx] at h1
            exact absurd h1 Bool.false_ne_true
          · rw [if_neg hxy, if_neg hyx] at h1
            by_cases hyz : y.toNat < z.toNat
            · rw [if_pos (show x.toNat < z.toNat by omega)]
            · by_cases hzy : z.toNat < y.toNat
              · rw [if_neg hyz, if_pos hzy] at h2
                exact absurd h2 Bool.false_ne_true
              · rw [if_neg hyz, if_neg hzy] at h2
                rw [if_neg (show ¬x.toNat < z.toNat by omega),
                    if_neg (show ¬z.toNat < x.toNat by omega)]
                exact ih yt h1 zt h2

/-- Apply one change entry: created/updated create-or-overwrite, deleted
removes-if-present, an entry without a kind is a no-op. -/
def applyChange (dst : List Resource) (r : Resource) : List Resource :=
  match r.changeKind with
  | some .created => upsert dst r
  | some .updated => upsert dst r
  | some .deleted => removeUri dst r.uri
  | none => dst

/-- Count of entries of a given change kind. -/
def countKind (l : List Resource) (k : ChangeKind) : Nat :=
  l.countP (fun r => r.changeKind == some k)

/-- Modelled from the spec (section 4.4): `incremental` — fatal when no
mapping is set; otherwise fetches the changes at or after `from_datetime`,
logs the read report, applies the entries in changeDatetime order and logs
the CHANGES APPLIED status line with the applied counts. -/
def Client.incremental (c : Client) (w : IncWorld) (from_datetime : String) :
    Except ClientFatalError IncOutcome :=
  match c.mappings with
  | [] => .error ⟨"No source to destination mapping specified"⟩
  | _ :: _ =>
    let changes := fetchChanges w.changeList from_datetime
    let ordered := changes.insertionSort dtLe
    let nc := countKind ordered .created
    let nu := countKind ordered .updated
    let nd := countKind ordered .deleted
    let dst2 := ordered.foldl applyChange w.dstList
    .ok ⟨dst2, changes.length, nc, nu, nd,
         [.info (changeListReadLine changes.length),
          .status (incStatusLine nc nu nd)]⟩

/-- A capability-list / source-description manifest: its own capability kind
and its (loc, capability) entries in document order. -/
structure CapManifest where
  capability : String
  entries : List (String × String)
deriving DecidableEq, Repr

/-- Modelled from the spec (section 4.5): one entry (uri, capability=name)
per input pair, caller order preserved, document kind capabilitylist. -/
def Client.write_capability_list (capabilities : List (String × String)) : CapManifest :=
  ⟨"capabilitylist", capabilities.map (fun p => (p.2, p.1))⟩

/-- Modelled from the spec (section 4.5): one entry
(uri, capability=capabilitylist) per input uri, order preserved, document
kind description. -/
def Client.write_source_description (uris : List String) : CapManifest :=
  ⟨"description", uris.map (fun u => (u, "capabilitylist"))⟩

/-- One regular file as the ResourceListBuilder observes it. -/
structure FileInfo where
  path : String
  mtime : String
  size : Nat
  digest : String
deriving DecidableEq, Repr

/-- Modelled from the spec: a ResourceList decorated with its capability and
pagination threshold. -/
structure ResourceList where
  resources : List Resource
  capability : String
  max_sitemap_entries : Option Nat
deriving DecidableEq, Repr

/-- Map a local path back to a URI through the mapping's root substitution. -/
def pathToUri (m : Mapping) (p : String) : String :=
  if p == m.pathRoot then m.uriRoot
  else if (m.pathRoot ++ "/").toList.isPrefixOf p.toList then
    m.uriRoot ++ "/" ++ String.mk (p.toList.drop (m.pathRoot.toList.length + 1))
  else p

/-- Modelled from the spec: one Resource per regular file — uri from
`pathToUri`, lastmod from the modification time, length from the size, a
checksum only in checksum mode. -/
def fileToResource (checksum : Bool) (m : Mapping) (f : FileInfo) : Resource :=
  { uri := pathToUri m f.path
    lastmod := some f.mtime
    length := some f.size
    md5 := if checksum then some f.digest else none }

/-- Modelled from the spec and test01/test03: `build_resource_list` is fatal
without a mapping, and otherwise returns the scanned resources decorated
with the Client's max_sitemap_entries. -/
def Client.build_resource_list (c : Client) (files : List FileInfo) :
    Except ClientFatalError ResourceList :=
  match c.mappings with
  | [] => .error ⟨"No source to destination mapping specified"⟩
  | m :: _ =>
    .ok ⟨files.map (fileToResource c.checksum m), "resourcelist", c.max_sitemap_entries⟩

/-- Modelled from the claim's words (C3), for comparison with the code-side
behaviour: the four fatal preconditions the claim enumerates — no mapping,
unresolvable source root, unsafe mapping, both lists empty in non-audit
mode. -/
def claimedFatalPrecond (c : Client) (w : World) (audit_only : Bool) : Bool :=
  c.mappings.isEmpty ||
  (match c.mappings with | [] => false | m :: _ => m.notSafe) ||
  w.srcList.isNone ||
  (match w.srcList with
   | some src => src.isEmpty && w.dstList.isEmpty && !audit_only
   | none => false)

/-- The cross-domain fatal condition of the modelled `baseline_or_audit`: a
non-audit run with pending changes among which some created/updated resource
sits in another authority, without the no-auth-check override. -/
def crossDomainFatal (c : Client) (w : World) (audit_only : Bool) : Bool :=
  match c.mappings, w.srcList with
  | m :: _, some src =>
    !audit_only &&
      ((computeDiff (c.checksum && hasMd5 src) src w.dstList).created.length +
        (computeDiff (c.checksum && hasMd5 src) src w.dstList).updated.length +
        (computeDiff (c.checksum && hasMd5 src) src w.dstList).deleted.length != 0) &&
      !c.noAuthCheck &&
      !(((computeDiff (c.checksum && hasMd5 src) src w.dstList).created ++
          (computeDiff (c.checksum && hasMd5 src) src w.dstList).updated).filter
        (fun r => !sameAuthority r.uri m.uriRoot)).isEmpty
  | _, _ => false

/-- Log lines of an outcome, empty on error. -/
def outcomeLog : Except ClientFatalError BaselineOutcome → List LogLine
  | .ok o => o.log
  | .error _ => []

/-- Concrete fixture: resource a of the scenario-A source. -/
def rA : Resource := { uri := "http://e.org/s/a", lastmod := some "2013-01-01" }

/-- Concrete fixture: resource b of the scenario-A source. -/
def rB : Resource := { uri := "http://e.org/s/b", lastmod := some "2013-01-02" }

/-- Concrete fixture: resource c of the scenario-A source. -/
def rC : Resource := { uri := "http://e.org/s/c", lastmod := some "2013-01-03" }

/-- Concrete fixture: a resource in another authority than the source root. -/
def rX : Resource := { uri := "http://other.com/x", lastmod := some "2013-01-01" }

/-- Concrete fixture: a client with one safe mapping. -/
def cli : Client := Client.init.set_mappings "http://e.org/s/" "/dst"

/-- Concrete fixture: the same client with checksum mode enabled. -/
def ccs : Client := { cli with checksum := true }

/-- Concrete fixture: one created change event. -/
def ch1 : Resource :=
  { uri := "http://e.org/s/d"
    lastmod := some "2015-01-02"
    changeKind := some ChangeKind.created
    changeDatetime := some "2015-01-02T00:00:00Z" }

/-- Concrete fixture: the outcome of the one-resource audit run used as the
C2 witness input. -/
def oA : BaselineOutcome :=
  ⟨cli, [], ⟨0, 1, 0, 0⟩, [.status (auditStatusLine "NOT IN SYNC" 0 1 0 0)]⟩

/-- Concrete fixture: the outcome of syncing an empty source against a
one-resource destination with deletion allowed. -/
def o1e : BaselineOutcome :=
  ⟨cli, [], ⟨0, 0, 0, 1⟩,
   [.status (auditStatusLine "NOT IN SYNC" 0 0 0 1),
    .status (applyStatusLine "SYNCED" 0 0 0 1)]⟩

/-- Concrete fixture: the outcome of the scenario-A baseline sync with
deletion allowed, used as the first run of the idempotence witness. -/
def o1w : BaselineOutcome :=
  ⟨cli, [rA, rB, rC], ⟨0, 3, 0, 0⟩,
   [.status (auditStatusLine "NOT IN SYNC" 0 3 0 0),
    .status (applyStatusLine "SYNCED" 0 3 0 0)]⟩

/-- The client with its no-auth-check override set to `b`. -/
def Client.setNoAuthCheck (c : Client) (b : Bool) : Client :=
  { c with noAuthCheck := b }

/-- Concrete fixture: the incremental world holding one created change. -/
def chW : IncWorld := ⟨[ch1], []⟩

/-! ## Theorems -/

theorem setNoAuthCheck_mappings (c : Client) (b : Bool) :
    (c.setNoAuthCheck b).mappings = c.mappings := rfl

theorem setNoAuthCheck_checksum (c : Client) (b : Bool) :
    (c.setNoAuthCheck b).checksum = c.checksum := rfl

theorem setNoAuthCheck_flag (c : Client) (b : Bool) :
    (c.setNoAuthCheck b).noAuthCheck = b := rfl

theorem statusLines_cons_status (s : String) (l : List LogLine) :
    statusLines (LogLine.status s :: l) = s :: statusLines l := by
  unfold statusLines
  rw [List.filterMap_cons]

theorem statusLines_cons_warning (s : String) (l : List LogLine) :
    statusLines (LogLine.warning s :: l) = statusLines l := by
  unfold statusLines
  rw [List.filterMap_cons]

theorem statusLines_append (l1 l2 : List LogLine) :
    statusLines (l1 ++ l2) = statusLines l1 ++ statusLines l2 := by
  unfold statusLines
  exact List.filterMap_append l1 l2 _

theorem statusLines_warnings (l : List Resource) :
    statusLines (l.map (fun r => LogLine.warning (authWarnLine r.uri))) = [] := by
  induction l with
  | nil => rfl
  | cons x xs ih =>
    rw [List.map_cons, statusLines_cons_warning]
    exact ih

theorem mk2_notSafe_iff (c : Client) (m : Mapping) (tl : List Mapping) (w : World)
    (a d : Bool) (hm : c.mappings = m :: tl) :
    c.baseline_or_audit w a d = .error ⟨"Source to destination mappings unsafe"⟩ ↔
      m.notSafe = true := by
  unfold Client.baseline_or_audit
  rw [hm]
  by_cases hns : m.notSafe
  · simp [hns]
  · simp only [Bool.not_eq_true] at hns
    simp only [hns, Bool.false_eq_true, if_false]
    constructor
    · intro h
      cases hsrc : w.srcList with
      | none => rw [hsrc] at h; simp at h
      | some src =>
        rw [hsrc] at h
        simp only at h
        split at h
        · simp at h
        · split at h
          · simp at h
          · split at h
            · simp at h
            · simp at h
    · intro h
      simp at h

/-- Claim C10: `build_resource_list` propagates the client's configured
`max_sitemap_entries` into the resulting ResourceList without changing the
number of entries. -/
theorem claim_C10 (c : Client) (m : Mapping) (tl : List Mapping) (files : List FileInfo)
    (hm : c.mappings = m :: tl) :
    ∃ rl, c.build_resource_list files = .ok rl ∧
      rl.max_sitemap_entries = c.max_sitemap_entries ∧
      rl.resources.length = files.length := by
  unfold Client.build_resource_list
  rw [hm]
  exact ⟨_, rfl, rfl, by simp⟩

theorem claim_C10_witness :
    ∃ rl, ({ Client.init.set_mappings "http://ex.a/" "testdata/dir1" with
             max_sitemap_entries := some 9 } : Client).build_resource_list
        [⟨"testdata/dir1/file_a", "2012-07-25T17:13:46Z", 20, "ab"⟩,
         ⟨"testdata/dir1/file_b", "2001-09-26T23:00:00Z", 45, "cd"⟩] = .ok rl ∧
      rl.max_sitemap_entries = some 9 ∧
      rl.resources.length = 2 :=
  claim_C10 _ (Mapping.make "http://ex.a/" "testdata/dir1") [] _ rfl

/-- Claim C9: `write_capability_list` emits a capabilitylist manifest with one
(uri, capability=name) entry per input pair, and `write_source_description`
emits a description manifest with one (uri, capability=capabilitylist) entry
per input URI, both preserving caller order. -/
theorem claim_C9 (caps : List (String × String)) (uris : List String) :
    (Client.write_capability_list caps).capability = "capabilitylist" ∧
    (Client.write_capability_list caps).entries = caps.map (fun p => (p.2, p.1)) ∧
    (Client.write_capability_list caps).entries.length = caps.length ∧
    (Client.write_source_description uris).capability = "description" ∧
    (Client.write_source_description uris).entries =
      uris.map (fun u => (u, "capabilitylist")) ∧
    (Client.write_source_description uris).entries.length = uris.length :=
  ⟨rfl, rfl, by simp [Client.write_capability_list], rfl, rfl,
   by simp [Client.write_source_description]⟩

/-- Claim C4, counterexample: the unsafe pair ('/tmp','/tmp') is accepted and
stored by `set_mappings` — no MapperError is raised at set time — and the
failure only surfaces from `baseline_or_audit`, as a ClientFatalError. -/
theorem claim_C4_counterexample :
    (Client.init.set_mappings "/tmp" "/tmp").mappings = [Mapping.make "/tmp" "/tmp"] ∧
    (Mapping.make "/tmp" "/tmp").notSafe = true ∧
    (Client.init.set_mappings "/tmp" "/tmp").baseline_or_audit ⟨some [], []⟩ true false =
      .error ⟨"Source to destination mappings unsafe"⟩ :=
  ⟨rfl, by decide, rfl⟩

/-- Claim C4 as amended: `set_mappings` accepts every pair, storing the
normalized mapping; a later `baseline_or_audit` fails with the
mappings-unsafe ClientFatalError exactly when the pair is unsafe (identical
or nested after normalization), and for safe (disjoint) pairs that failure
never occurs. -/
theorem claim_C4_amended (u p : String) (w : World) (a d : Bool) :
    (Client.init.set_mappings u p).mappings = [Mapping.make u p] ∧
    ((Client.init.set_mappings u p).baseline_or_audit w a d =
        .error ⟨"Source to destination mappings unsafe"⟩ ↔
      (Mapping.make u p).notSafe = true) :=
  ⟨rfl, mk2_notSafe_iff _ (Mapping.make u p) [] w a d rfl⟩

theorem baseline_unfold (c : Client) (m : Mapping) (tl : List Mapping)
    (src : List Resource) (w : World) (a d : Bool)
    (hm : c.mappings = m :: tl) (hsafe : m.notSafe = false)
    (hs : w.srcList = some src)
    (hne : (src.isEmpty && w.dstList.isEmpty && !a) = false) :
    c.baseline_or_audit w a d =
      (let cs := c.checksum && hasMd5 src
       let dd := computeDiff cs src w.dstList
       let pending := dd.created.length + dd.updated.length + dd.deleted.length
       let line1 := LogLine.status (auditStatusLine
         (if pending == 0 then "IN SYNC" else "NOT IN SYNC")
         dd.same.length dd.created.length dd.updated.length dd.deleted.length)
       if a || pending == 0 then
         .ok ⟨{ c with checksum := cs }, w.dstList,
              ⟨dd.same.length, dd.created.length, dd.updated.length, dd.deleted.length⟩,
              [line1]⟩
       else
         let ext := (dd.created ++ dd.updated).filter
           (fun r => !sameAuthority r.uri m.uriRoot)
         if !ext.isEmpty && !c.noAuthCheck then
           .error ⟨"Aborting since resources in other domain"⟩
         else
           .ok ⟨{ c with checksum := cs }, applyBaseline w.dstList dd d,
                ⟨dd.same.length, dd.created.length, dd.updated.length,
                 if d then dd.deleted.length else 0⟩,
                line1 :: ((ext.map (fun r => LogLine.warning (authWarnLine r.uri))) ++
                  [LogLine.status (applyStatusLine
                    (if (if d then 0 else dd.deleted.length) == 0 then "SYNCED"
                     else "NOT IN SYNC")
                    dd.same.length dd.created.length dd.updated.length
                    (if d then dd.deleted.length else 0))])⟩) := by
  unfold Client.baseline_or_audit
  rw [hm, hs]
  simp only [hsafe, Bool.false_eq_true, if_false, hne]

theorem baseline_ok_mappings (c : Client) (w : World) (a d : Bool) (o : BaselineOutcome)
    (h : c.baseline_or_audit w a d = .ok o) :
    ∃ m tl, c.mappings = m :: tl ∧ m.notSafe = false := by
  cases hm : c.mappings with
  | nil =>
    exfalso
    unfold Client.baseline_or_audit at h
    rw [hm] at h
    simp at h
  | cons m tl =>
    refine ⟨m, tl, rfl, ?_⟩
    by_cases hns : m.notSafe = true
    · exfalso
      unfold Client.baseline_or_audit at h
      rw [hm] at h
      simp [hns] at h
    · rw [Bool.not_eq_true] at hns
      exact hns

theorem baseline_ok_shape (c : Client) (w : World) (a d : Bool) (o : BaselineOutcome)
    (m : Mapping) (tl : List Mapping) (src : List Resource)
    (hm : c.mappings = m :: tl) (hns : m.notSafe = false) (hs : w.srcList = some src)
    (h : c.baseline_or_audit w a d = .ok o) :
    o.client = { c with checksum := c.checksum && hasMd5 src } ∧
    (((a || ((computeDiff (c.checksum && hasMd5 src) src w.dstList).created.length +
        (computeDiff (c.checksum && hasMd5 src) src w.dstList).updated.length +
        (computeDiff (c.checksum && hasMd5 src) src w.dstList).deleted.length == 0)) = true ∧
       o = ⟨{ c with checksum := c.checksum && hasMd5 src }, w.dstList,
            ⟨(computeDiff (c.checksum && hasMd5 src) src w.dstList).same.length,
             (computeDiff (c.checksum && hasMd5 src) src w.dstList).created.length,
             (computeDiff (c.checksum && hasMd5 src) src w.dstList).updated.length,
             (computeDiff (c.checksum && hasMd5 src) src w.dstList).deleted.length⟩,
            [LogLine.status (auditStatusLine
              (if ((computeDiff (c.checksum && hasMd5 src) src w.dstList).created.length +
                   (computeDiff (c.checksum && hasMd5 src) src w.dstList).updated.length +
                   (computeDiff (c.checksum && hasMd5 src) src w.dstList).deleted.length == 0)
               then "IN SYNC" else "NOT IN SYNC")
              (computeDiff (c.checksum && hasMd5 src) src w.dstList).same.length
              (computeDiff (c.checksum && hasMd5 src) src w.dstList).created.length
              (computeDiff (c.checksum && hasMd5 src) src w.dstList).updated.length
              (computeDiff (c.checksum && hasMd5 src) src w.dstList).deleted.length)]⟩) ∨
     ((a || ((computeDiff (c.checksum && hasMd5 src) src w.dstList).created.length +
        (computeDiff (c.checksum && hasMd5 src) src w.dstList).updated.length +
        (computeDiff (c.checksum && hasMd5 src) src w.dstList).deleted.length == 0)) = false ∧
       o = ⟨{ c with checksum := c.checksum && hasMd5 src },
            applyBaseline w.dstList (computeDiff (c.checksum && hasMd5 src) src w.dstList) d,
            ⟨(computeDiff (c.checksum && hasMd5 src) src w.dstList).same.length,
             (computeDiff (c.checksum && hasMd5 src) src w.dstList).created.length,
             (computeDiff (c.checksum && hasMd5 src) src w.dstList).updated.length,
             if d then (computeDiff (c.checksum && hasMd5 src) src w.dstList).deleted.length
             else 0⟩,
            LogLine.status (auditStatusLine
              (if ((computeDiff (c.checksum && hasMd5 src) src w.dstList).created.length +
                   (computeDiff (c.checksum && hasMd5 src) src w.dstList).updated.length +
                   (computeDiff (c.checksum && hasMd5 src) src w.dstList).deleted.length == 0)
               then "IN SYNC" else "NOT IN SYNC")
              (computeDiff (c.checksum && hasMd5 src) src w.dstList).same.length
              (computeDiff (c.checksum && hasMd5 src) src w.dstList).created.length
              (computeDiff (c.checksum && hasMd5 src) src w.dstList).updated.length
              (computeDiff (c.checksum && hasMd5 src) src w.dstList).deleted.length) ::
            ((((computeDiff (c.checksum && hasMd5 src) src w.dstList).created ++
               (computeDiff (c.checksum && hasMd5 src) src w.dstList).updated).filter
                (fun r => !sameAuthority r.uri m.uriRoot)).map
              (fun r => LogLine.warning (authWarnLine r.uri)) ++
             [LogLine.status (applyStatusLine
               (if (if d then 0
                    else (computeDiff (c.checksum && hasMd5 src) src w.dstList).deleted.length)
                    == 0 then "SYNCED" else "NOT IN SYNC")
               (computeDiff (c.checksum && hasMd5 src) src w.dstList).same.length
               (computeDiff (c.checksum && hasMd5 src) src w.dstList).created.length
               (computeDiff (c.checksum && hasMd5 src) src w.dstList).updated.length
               (if d then (computeDiff (c.checksum && hasMd5 src) src w.dstList).deleted.length
                else 0))])⟩)) := by
  by_cases hne : (src.isEmpty && w.dstList.isEmpty && !a) = true
  · exfalso
    unfold Client.baseline_or_audit at h
    rw [hm, hs] at h
    simp [hns, hne] at h
  · rw [Bool.not_eq_true] at hne
    rw [baseline_unfold c m tl src w a d hm hns hs hne] at h
    by_cases hap : (a || ((computeDiff (c.checksum && hasMd5 src) src w.dstList).created.length +
        (computeDiff (c.checksum && hasMd5 src) src w.dstList).updated.length +
        (computeDiff (c.checksum && hasMd5 src) src w.dstList).deleted.length == 0)) = true
    · rw [if_pos hap] at h
      rw [Except.ok.injEq] at h
      exact ⟨by rw [← h], Or.inl ⟨hap, h.symm⟩⟩
    · rw [Bool.not_eq_true] at hap
      rw [if_neg (by rw [hap]; exact Bool.false_ne_true)] at h
      by_cases hec : ((!((((computeDiff (c.checksum && hasMd5 src) src w.dstList).created ++
          (computeDiff (c.checksum && hasMd5 src) src w.dstList).updated).filter
            (fun r => !sameAuthority r.uri m.uriRoot)).isEmpty)) && !c.noAuthCheck) = true
      · rw [if_pos hec] at h
        simp at h
      · rw [Bool.not_eq_true] at hec
        rw [if_neg (by rw [hec]; exact Bool.false_ne_true)] at h
        rw [Except.ok.injEq] at h
        exact ⟨by rw [← h], Or.inr ⟨hap, h.symm⟩⟩

theorem baseline_ok_client (c : Client) (w : World) (a d : Bool) (o : BaselineOutcome)
    (h : c.baseline_or_audit w a d = .ok o) :
    ∃ src, w.srcList = some src ∧
      o.client = { c with checksum := c.checksum && hasMd5 src } := by
  obtain ⟨m, tl, hm, hns⟩ := baseline_ok_mappings c w a d o h
  cases hs : w.srcList with
  | none =>
    exfalso
    unfold Client.baseline_or_audit at h
    rw [hm, hs] at h
    simp [hns] at h
  | some src =>
    exact ⟨src, rfl, (baseline_ok_shape c w a d o m tl src hm hns hs h).1⟩


theorem findRes_cons (x : Resource) (l : List Resource) (u : String) :
    findRes (x :: l) u = if (x.uri == u) = true then some x else findRes l u := by
  unfold findRes
  rw [List.find?_cons]
  by_cases hx : (x.uri == u) = true
  · rw [hx]
    rfl
  · rw [Bool.not_eq_true] at hx
    rw [hx]
    rfl

theorem findRes_append (l1 l2 : List Resource) (u : String) :
    findRes (l1 ++ l2) u = (findRes l1 u).or (findRes l2 u) := by
  induction l1 with
  | nil => rfl
  | cons x xs ih =>
    rw [List.cons_append, findRes_cons, findRes_cons]
    by_cases hx : (x.uri == u) = true
    · rw [if_pos hx, if_pos hx]
      rfl
    · rw [if_neg hx, if_neg hx, ih]

theorem mem_of_findRes {l : List Resource} {u : String} {r : Resource}
    (h : findRes l u = some r) : r ∈ l ∧ r.uri = u := by
  unfold findRes at h
  have h2 := List.find?_some h
  exact ⟨List.mem_of_find?_eq_some h, by simpa using h2⟩

theorem findRes_isSome_of_mem {l : List Resource} {r : Resource} (h : r ∈ l) :
    (findRes l r.uri).isSome = true := by
  unfold findRes
  rw [List.find?_isSome]
  exact ⟨r, h, by simp⟩

theorem findRes_eq_none_of_not_mem {l : List Resource} {u : String}
    (h : ∀ r ∈ l, (r.uri == u) = false) : findRes l u = none := by
  unfold findRes
  rw [List.find?_eq_none]
  intro x hx
  rw [h x hx]
  exact Bool.false_ne_true

theorem findRes_map_replace_self (l : List Resource) (r : Resource)
    (h : (findRes l r.uri).isSome = true) :
    findRes (l.map (fun d => if (d.uri == r.uri) = true then r else d)) r.uri = some r := by
  induction l with
  | nil => simp [findRes] at h
  | cons x xs ih =>
    rw [List.map_cons]
    by_cases hx : (x.uri == r.uri) = true
    · rw [if_pos hx, findRes_cons, if_pos (by simp)]
    · rw [if_neg hx, findRes_cons, if_neg hx]
      rw [findRes_cons, if_neg hx] at h
      exact ih h

theorem findRes_map_replace_other (l : List Resource) (r : Resource) (u : String)
    (h : (u == r.uri) = false) :
    findRes (l.map (fun d => if (d.uri == r.uri) = true then r else d)) u = findRes l u := by
  induction l with
  | nil => rfl
  | cons x xs ih =>
    rw [List.map_cons]
    by_cases hx : (x.uri == r.uri) = true
    · have hru : (r.uri == u) = false := by
        rw [beq_eq_false_iff_ne] at h ⊢
        exact fun he => h he.symm
      have hxu : (x.uri == u) = false := by
        rw [beq_eq_false_iff_ne] at hru ⊢
        rw [beq_iff_eq.mp hx]
        exact hru
      rw [if_pos hx, findRes_cons, findRes_cons,
          if_neg (by rw [hru]; exact Bool.false_ne_true),
          if_neg (by rw [hxu]; exact Bool.false_ne_true), ih]
    · rw [if_neg hx, findRes_cons, findRes_cons, ih]

theorem findRes_upsert_self (l : List Resource) (r : Resource) :
    findRes (upsert l r) r.uri = some r := by
  unfold upsert
  by_cases hf : (findRes l r.uri).isSome = true
  · rw [if_pos hf]
    exact findRes_map_replace_self l r hf
  · rw [Bool.not_eq_true] at hf
    rw [if_neg (by rw [hf]; exact Bool.false_ne_true)]
    rw [findRes_append]
    have hnone : findRes l r.uri = none :=
      Option.not_isSome_iff_eq_none.mp (by rw [hf]; exact Bool.false_ne_true)
    rw [hnone, findRes_cons, if_pos (by simp)]
    rfl

theorem findRes_upsert_other (l : List Resource) (r : Resource) (u : String)
    (h : (u == r.uri) = false) : findRes (upsert l r) u = findRes l u := by
  unfold upsert
  by_cases hf : (findRes l r.uri).isSome = true
  · rw [if_pos hf]
    exact findRes_map_replace_other l r u h
  · rw [Bool.not_eq_true] at hf
    rw [if_neg (by rw [hf]; exact Bool.false_ne_true)]
    rw [findRes_append]
    have hru : (r.uri == u) = false := by
      rw [beq_eq_false_iff_ne] at h ⊢
      exact fun he => h he.symm
    rw [findRes_cons, if_neg (by rw [hru]; exact Bool.false_ne_true)]
    show (findRes l u).or (findRes [] u) = findRes l u
    exact Option.or_none

theorem findRes_foldl_upsert_not_mem (rs : List Resource) (acc : List Resource) (u : String)
    (h : ∀ r ∈ rs, (u == r.uri) = false) :
    findRes (rs.foldl upsert acc) u = findRes acc u := by
  induction rs generalizing acc with
  | nil => rfl
  | cons x xs ih =>
    rw [List.foldl_cons]
    rw [ih _ (fun r hr => h r (List.mem_cons_of_mem _ hr))]
    exact findRes_upsert_other acc x u (h x (List.mem_cons_self _ _))

theorem findRes_foldl_upsert_mem (rs : List Resource) :
    ∀ (acc : List Resource) (r : Resource),
      (rs.map Resource.uri).Nodup → r ∈ rs →
      findRes (rs.foldl upsert acc) r.uri = some r := by
  induction rs with
  | nil =>
    intro acc r _ hr
    cases hr
  | cons x xs ih =>
    intro acc r hnd hr
    rw [List.map_cons, List.nodup_cons] at hnd
    rw [List.foldl_cons]
    rcases List.mem_cons.mp hr with h1 | h2
    · subst h1
      rw [findRes_foldl_upsert_not_mem xs _ r.uri ?notin]
      · exact findRes_upsert_self acc r
      case notin =>
        intro s hs
        rw [beq_eq_false_iff_ne]
        intro he
        exact hnd.1 (by rw [he]; exact List.mem_map_of_mem Resource.uri hs)
    · exact ih (upsert acc x) r hnd.2 h2

theorem mem_removeUri {l : List Resource} {v : String} {x : Resource} :
    x ∈ removeUri l v ↔ x ∈ l ∧ x.uri ≠ v := by
  simp [removeUri, List.mem_filter, bne_iff_ne]

theorem findRes_removeUri_other (l : List Resource) (v : String) (u : String)
    (h : u ≠ v) : findRes (removeUri l v) u = findRes l u := by
  induction l with
  | nil => rfl
  | cons x xs ih =>
    unfold removeUri at ih ⊢
    rw [List.filter_cons]
    by_cases hx : (x.uri != v) = true
    · rw [if_pos hx, findRes_cons, findRes_cons, ih]
    · rw [if_neg hx]
      have hxv : x.uri = v := by
        by_cases hbe : (x.uri == v) = true
        · exact beq_iff_eq.mp hbe
        · exfalso
          rw [Bool.not_eq_true] at hbe hx
          have h4 : (x.uri != v) = true := by
            show (!(x.uri == v)) = true
            rw [hbe]
            rfl
          rw [hx] at h4
          exact Bool.false_ne_true h4
      rw [findRes_cons, if_neg (by
        rw [beq_eq_false_iff_ne.mpr (fun he => h (by rw [← he]; exact hxv))]
        exact Bool.false_ne_true)]
      exact ih

theorem findRes_foldl_remove_not_mem (dels : List Resource) (acc : List Resource) (u : String)
    (h : ∀ r ∈ dels, u ≠ r.uri) :
    findRes (dels.foldl (fun a2 r => removeUri a2 r.uri) acc) u = findRes acc u := by
  induction dels generalizing acc with
  | nil => rfl
  | cons x xs ih =>
    rw [List.foldl_cons]
    rw [ih _ (fun r hr => h r (List.mem_cons_of_mem _ hr))]
    exact findRes_removeUri_other acc x.uri u (h x (List.mem_cons_self _ _))

theorem mem_foldl_remove {dels acc : List Resource} {x : Resource}
    (h : x ∈ dels.foldl (fun a2 r => removeUri a2 r.uri) acc) :
    x ∈ acc ∧ ∀ r ∈ dels, x.uri ≠ r.uri := by
  induction dels generalizing acc with
  | nil => exact ⟨h, fun r hr => absurd hr (List.not_mem_nil r)⟩
  | cons y ys ih =>
    rw [List.foldl_cons] at h
    obtain ⟨h1, h2⟩ := ih h
    obtain ⟨h3, h4⟩ := mem_removeUri.mp h1
    refine ⟨h3, fun r hr => ?_⟩
    rcases List.mem_cons.mp hr with h5 | h5
    · rw [h5]
      exact h4
    · exact h2 r h5

theorem mem_upsert {l : List Resource} {r x : Resource} (h : x ∈ upsert l r) :
    x ∈ l ∨ x = r := by
  unfold upsert at h
  by_cases hf : (findRes l r.uri).isSome = true
  · rw [if_pos hf] at h
    obtain ⟨y, hy, hfy⟩ := List.mem_map.mp h
    by_cases hyu : (y.uri == r.uri) = true
    · rw [if_pos hyu] at hfy
      exact Or.inr hfy.symm
    · rw [if_neg hyu] at hfy
      exact Or.inl (hfy ▸ hy)
  · rw [Bool.not_eq_true] at hf
    rw [if_neg (by rw [hf]; exact Bool.false_ne_true)] at h
    rcases List.mem_append.mp h with h1 | h1
    · exact Or.inl h1
    · exact Or.inr (List.mem_singleton.mp h1)

theorem mem_foldl_upsert {rs acc : List Resource} {x : Resource}
    (h : x ∈ rs.foldl upsert acc) : x ∈ acc ∨ x ∈ rs := by
  induction rs generalizing acc with
  | nil => exact Or.inl h
  | cons y ys ih =>
    rw [List.foldl_cons] at h
    rcases ih h with h1 | h1
    · rcases mem_upsert h1 with h2 | h2
      · exact Or.inl h2
      · exact Or.inr (h2 ▸ List.mem_cons_self _ _)
    · exact Or.inr (List.mem_cons_of_mem _ h1)

theorem resourcesDiffer_self (b : Bool) (r : Resource) :
    resourcesDiffer b r r = false := by
  unfold resourcesDiffer
  split
  · simp
  · simp

theorem foldl_upsert_fresh (rs : List Resource) (acc : List Resource)
    (hfresh : ∀ r ∈ rs, findRes acc r.uri = none)
    (hnd : (rs.map Resource.uri).Nodup) :
    rs.foldl upsert acc = acc ++ rs := by
  induction rs generalizing acc with
  | nil => simp
  | cons x xs ih =>
    rw [List.map_cons, List.nodup_cons] at hnd
    rw [List.foldl_cons]
    have hx : upsert acc x = acc ++ [x] := by
      unfold upsert
      rw [if_neg (by
        rw [hfresh x (List.mem_cons_self _ _)]
        exact Bool.false_ne_true)]
    rw [hx]
    rw [ih (acc ++ [x]) ?fresh hnd.2]
    · rw [List.append_assoc]
      rfl
    case fresh =>
      intro r hr
      rw [findRes_append]
      rw [hfresh r (List.mem_cons_of_mem _ hr)]
      rw [findRes_cons, if_neg (by
        rw [beq_eq_false_iff_ne.mpr
          (fun he => hnd.1 (by rw [he]; exact List.mem_map_of_mem Resource.uri hr))]
        exact Bool.false_ne_true)]
      rfl

/-- Claim C5: with checksum mode enabled but no checksum anywhere in the
source list, the run behaves exactly as a lastmod-only (checksum-off) run,
and the client's checksum flag is observably false afterward. -/
theorem claim_C5 (c : Client) (w : World) (src : List Resource) (a d : Bool)
    (hs : w.srcList = some src) (hcs : c.checksum = true) (hmd : hasMd5 src = false) :
    c.baseline_or_audit w a d =
      ({ c with checksum := false } : Client).baseline_or_audit w a d ∧
    ∀ o, c.baseline_or_audit w a d = .ok o → o.client.checksum = false := by
  constructor
  · obtain ⟨maps, cs0, na, mx⟩ := c
    unfold Client.baseline_or_audit
    cases maps with
    | nil => rfl
    | cons m tl =>
      rw [hs]
      simp only [hmd, Bool.and_false]
  · intro o h
    obtain ⟨src2, hs2, hcl⟩ := baseline_ok_client c w a d o h
    rw [hs] at hs2
    rw [Option.some.injEq] at hs2
    subst hs2
    rw [hcl]
    simp [hmd]

theorem claim_C5_witness :
    ccs.baseline_or_audit ⟨some [rA], []⟩ true false =
      ({ ccs with checksum := false } : Client).baseline_or_audit ⟨some [rA], []⟩ true false ∧
    ∀ o, ccs.baseline_or_audit ⟨some [rA], []⟩ true false = .ok o →
      o.client.checksum = false :=
  claim_C5 ccs ⟨some [rA], []⟩ [rA] true false rfl rfl rfl

/-- Claim C3, counterexample: with a mapping configured, a safe mapping, a
resolvable and nonempty source list, a non-audit run still fails fatally
before any destination side effect — because of a cross-domain resource —
so the claim's four preconditions are not exhaustive. -/
theorem claim_C3_counterexample :
    cli.baseline_or_audit ⟨some [rX], []⟩ false false =
      .error ⟨"Aborting since resources in other domain"⟩ ∧
    claimedFatalPrecond cli ⟨some [rX], []⟩ false = false := ⟨rfl, rfl⟩

/-- Claim C3 as amended: `baseline_or_audit` fails with a fatal error exactly
under the claim's four preconditions (no mapping, unsafe mapping,
unresolvable source root, both lists empty in non-audit mode — the last one
scoped to non-audit mode) or under the cross-domain condition of C6 (a
non-audit run with pending changes containing a resource of another
authority, without the no-auth-check override). -/
theorem claim_C3_amended (c : Client) (w : World) (a d : Bool) :
    (∃ e, c.baseline_or_audit w a d = .error e) ↔
      (claimedFatalPrecond c w a = true ∨ crossDomainFatal c w a = true) := by
  cases hm : c.mappings with
  | nil =>
    constructor
    · intro _
      left
      simp [claimedFatalPrecond, hm]
    · intro _
      refine ⟨⟨"No source to destination mapping specified"⟩, ?_⟩
      unfold Client.baseline_or_audit
      rw [hm]
  | cons m tl =>
    by_cases hns : m.notSafe = true
    · constructor
      · intro _
        left
        simp [claimedFatalPrecond, hm, hns]
      · intro _
        refine ⟨⟨"Source to destination mappings unsafe"⟩, ?_⟩
        unfold Client.baseline_or_audit
        rw [hm]
        simp [hns]
    · rw [Bool.not_eq_true] at hns
      cases hsrc : w.srcList with
      | none =>
        constructor
        · intro _
          left
          simp [claimedFatalPrecond, hm, hsrc]
        · intro _
          refine ⟨⟨"Can not read source resource list"⟩, ?_⟩
          unfold Client.baseline_or_audit
          rw [hm, hsrc]
          simp [hns]
      | some src =>
        by_cases hne : (src.isEmpty && w.dstList.isEmpty && !a) = true
        · constructor
          · intro _
            left
            simp only [claimedFatalPrecond, hm, hsrc]
            simp [hne]
          · intro _
            refine ⟨⟨"No resources to sync"⟩, ?_⟩
            unfold Client.baseline_or_audit
            rw [hm, hsrc]
            simp [hns, hne]
        · rw [Bool.not_eq_true] at hne
          have hcl : claimedFatalPrecond c w a = false := by
            simp only [claimedFatalPrecond, hm, hsrc]
            simp [hns, hne]
          rw [baseline_unfold c m tl src w a d hm hns hsrc hne]
          rw [hcl]
          simp only [Bool.false_eq_true, false_or]
          have hcross : crossDomainFatal c w a =
              (!a && ((computeDiff (c.checksum && hasMd5 src) src w.dstList).created.length +
                (computeDiff (c.checksum && hasMd5 src) src w.dstList).updated.length +
                (computeDiff (c.checksum && hasMd5 src) src w.dstList).deleted.length != 0) &&
                !c.noAuthCheck &&
                !(((computeDiff (c.checksum && hasMd5 src) src w.dstList).created ++
                    (computeDiff (c.checksum && hasMd5 src) src w.dstList).updated).filter
                  (fun r => !sameAuthority r.uri m.uriRoot)).isEmpty) := by
            unfold crossDomainFatal
            rw [hm, hsrc]
          rw [hcross]
          set dd := computeDiff (c.checksum && hasMd5 src) src w.dstList with hdd
          by_cases hap : (a || (dd.created.length + dd.updated.length +
              dd.deleted.length == 0)) = true
          · rw [if_pos hap]
            constructor
            · intro he
              obtain ⟨e, he⟩ := he
              simp at he
            · intro hx
              exfalso
              cases ha : a with
              | true =>
                rw [ha] at hx
                simp at hx
              | false =>
                rw [ha, Bool.false_or] at hap
                have hp0 : dd.created.length + dd.updated.length + dd.deleted.length = 0 := by
                  simpa using hap
                rw [hp0] at hx
                simp at hx
          · rw [Bool.not_eq_true] at hap
            rw [if_neg (by rw [hap]; exact Bool.false_ne_true)]
            have ha : a = false := by
              cases haa : a
              · rfl
              · rw [haa] at hap
                simp at hap
            have hp : (dd.created.length + dd.updated.length +
                dd.deleted.length == 0) = false := by
              rw [ha, Bool.false_or] at hap
              exact hap
            have hpnz : ((dd.created.length + dd.updated.length +
                dd.deleted.length : Nat) != 0) = true := by
              show (!(dd.created.length + dd.updated.length +
                dd.deleted.length == 0)) = true
              rw [hp]
              rfl
            by_cases hec : ((!(((dd.created ++ dd.updated).filter
                (fun r => !sameAuthority r.uri m.uriRoot)).isEmpty)) &&
                !c.noAuthCheck) = true
            · rw [if_pos hec]
              rw [Bool.and_eq_true] at hec
              obtain ⟨he1, he2⟩ := hec
              constructor
              · intro _
                rw [ha, hpnz, he1, he2]
                rfl
              · intro _
                exact ⟨_, rfl⟩
            · rw [Bool.not_eq_true] at hec
              rw [if_neg (by rw [hec]; exact Bool.false_ne_true)]
              constructor
              · intro he
                obtain ⟨e, he⟩ := he
                simp at he
              · intro hx
                exfalso
                rw [Bool.and_eq_true, Bool.and_eq_true, Bool.and_eq_true] at hx
                obtain ⟨⟨⟨hx1, hx2⟩, hx3⟩, hx4⟩ := hx
                have hcontra : ((!(((dd.created ++ dd.updated).filter
                    (fun r => !sameAuthority r.uri m.uriRoot)).isEmpty)) &&
                    !c.noAuthCheck) = true := by
                  rw [hx4, hx3]
                  rfl
                rw [hec] at hcontra
                exact Bool.false_ne_true hcontra

/-- Claim C7: a baseline run against an empty destination with a
three-resource source reports same=0, created=3, updated=0, deleted=0, and
the destination afterwards mirrors the source. -/
theorem claim_C7 (c : Client) (w : World) (m : Mapping) (tl : List Mapping)
    (src : List Resource) (d : Bool)
    (hm : c.mappings = m :: tl) (hns : m.notSafe = false)
    (hs : w.srcList = some src) (hd0 : w.dstList = [])
    (h3 : src.length = 3) (hnd : (src.map Resource.uri).Nodup)
    (hauth : ∀ r ∈ src, sameAuthority r.uri m.uriRoot = true) :
    ∃ o, c.baseline_or_audit w false d = .ok o ∧
      o.summary = ⟨0, 3, 0, 0⟩ ∧ o.dst = src := by
  have hse : src ≠ [] := by
    intro h0
    rw [h0] at h3
    simp at h3
  have hne : (src.isEmpty && w.dstList.isEmpty && !false) = false := by
    cases hsrc0 : src with
    | nil => exact absurd hsrc0 hse
    | cons x xs => rfl
  rw [baseline_unfold c m tl src w false d hm hns hs hne, hd0]
  simp only [Bool.false_or]
  have hsame : (computeDiff (c.checksum && hasMd5 src) src []).same = [] :=
    List.filter_eq_nil_iff.mpr (fun a _ h => Bool.false_ne_true h)
  have hupd : (computeDiff (c.checksum && hasMd5 src) src []).updated = [] :=
    List.filter_eq_nil_iff.mpr (fun a _ h => Bool.false_ne_true h)
  have hcre : (computeDiff (c.checksum && hasMd5 src) src []).created = src :=
    List.filter_eq_self.mpr (fun a _ => rfl)
  have hdel : (computeDiff (c.checksum && hasMd5 src) src []).deleted = [] := rfl
  have happly : applyBaseline [] (computeDiff (c.checksum && hasMd5 src) src []) d = src := by
    unfold applyBaseline
    rw [hdel, hupd, hcre]
    simp only [List.foldl_nil, ite_self]
    rw [foldl_upsert_fresh src [] (fun r _ => rfl) hnd, List.nil_append]
  rw [hsame, hupd, hcre, hdel, happly]
  simp only [List.length_nil, Nat.add_zero, ite_self]
  rw [h3]
  simp only [show ((3 : Nat) == 0) = false from rfl, Bool.false_eq_true, if_false]
  have hext : (src ++ []).filter (fun r2 : Resource => !sameAuthority r2.uri m.uriRoot) = [] := by
    rw [List.append_nil]
    exact List.filter_eq_nil_iff.mpr (fun a ha h => by
      rw [hauth a ha] at h
      exact Bool.false_ne_true h)
  rw [hext]
  rw [if_neg (by simp)]
  exact ⟨_, rfl, rfl, rfl⟩

theorem claim_C7_witness :
    ∃ o, cli.baseline_or_audit ⟨some [rA, rB, rC], []⟩ false false = .ok o ∧
      o.summary = ⟨0, 3, 0, 0⟩ ∧ o.dst = [rA, rB, rC] :=
  claim_C7 cli ⟨some [rA, rB, rC], []⟩ (Mapping.make "http://e.org/s/" "/dst") []
    [rA, rB, rC] false rfl (by decide) rfl rfl rfl (by decide) (by decide)

/-- Claim C6: with a created/updated resource whose authority differs from
the source root's, the run fails fatally in default mode, and with the
no-auth-check override it succeeds and logs a warning for that resource. -/
theorem claim_C6 (c : Client) (w : World) (m : Mapping) (tl : List Mapping)
    (src : List Resource) (r : Resource) (d : Bool)
    (hm : c.mappings = m :: tl) (hns : m.notSafe = false) (hs : w.srcList = some src)
    (hr : r ∈ (computeDiff (c.checksum && hasMd5 src) src w.dstList).created ++
          (computeDiff (c.checksum && hasMd5 src) src w.dstList).updated)
    (hcross : sameAuthority r.uri m.uriRoot = false) :
    (c.setNoAuthCheck false).baseline_or_audit w false d =
      .error ⟨"Aborting since resources in other domain"⟩ ∧
    ∃ o, (c.setNoAuthCheck true).baseline_or_audit w false d = .ok o ∧
      LogLine.warning (authWarnLine r.uri) ∈ o.log := by
  have hrsrc : r ∈ src := by
    rcases List.mem_append.mp hr with h1 | h1
    · exact (List.mem_filter.mp h1).1
    · exact (List.mem_filter.mp h1).1
  have hse : src ≠ [] := List.ne_nil_of_mem hrsrc
  have hne : (src.isEmpty && w.dstList.isEmpty && !false) = false := by
    cases hsrc0 : src with
    | nil => exact absurd hsrc0 hse
    | cons x xs => rfl
  have hext_mem : r ∈ ((computeDiff (c.checksum && hasMd5 src) src w.dstList).created ++
      (computeDiff (c.checksum && hasMd5 src) src w.dstList).updated).filter
        (fun r2 => !sameAuthority r2.uri m.uriRoot) :=
    List.mem_filter.mpr ⟨hr, by rw [hcross]; rfl⟩
  have hie : (((computeDiff (c.checksum && hasMd5 src) src w.dstList).created ++
      (computeDiff (c.checksum && hasMd5 src) src w.dstList).updated).filter
        (fun r2 => !sameAuthority r2.uri m.uriRoot)).isEmpty = false := by
    cases hlist : ((computeDiff (c.checksum && hasMd5 src) src w.dstList).created ++
        (computeDiff (c.checksum && hasMd5 src) src w.dstList).updated).filter
          (fun r2 => !sameAuthority r2.uri m.uriRoot) with
    | nil =>
      rw [hlist] at hext_mem
      cases hext_mem
    | cons y ys => rfl
  have hpend : ((computeDiff (c.checksum && hasMd5 src) src w.dstList).created.length +
      (computeDiff (c.checksum && hasMd5 src) src w.dstList).updated.length +
      (computeDiff (c.checksum && hasMd5 src) src w.dstList).deleted.length == 0) = false := by
    rw [beq_eq_false_iff_ne]
    rcases List.mem_append.mp hr with h1 | h1
    · have := List.length_pos.mpr (List.ne_nil_of_mem h1)
      omega
    · have := List.length_pos.mpr (List.ne_nil_of_mem h1)
      omega
  constructor
  · rw [baseline_unfold (c.setNoAuthCheck false) m tl src w false d
      (by rw [setNoAuthCheck_mappings, hm]) hns hs hne]
    simp only [setNoAuthCheck_checksum, setNoAuthCheck_flag]
    rw [if_neg (by rw [Bool.false_or, hpend]; exact Bool.false_ne_true)]
    rw [if_pos (by rw [hie]; rfl)]
  · rw [baseline_unfold (c.setNoAuthCheck true) m tl src w false d
      (by rw [setNoAuthCheck_mappings, hm]) hns hs hne]
    simp only [setNoAuthCheck_checksum, setNoAuthCheck_flag]
    rw [if_neg (by rw [Bool.false_or, hpend]; exact Bool.false_ne_true)]
    rw [if_neg (by rw [hie]; simp)]
    refine ⟨_, rfl, ?_⟩
    exact List.mem_cons_of_mem _
      (List.mem_append.mpr (Or.inl (List.mem_map_of_mem _ hext_mem)))

theorem claim_C6_witness :
    (cli.setNoAuthCheck false).baseline_or_audit ⟨some [rX], []⟩ false false =
      .error ⟨"Aborting since resources in other domain"⟩ ∧
    ∃ o, (cli.setNoAuthCheck true).baseline_or_audit ⟨some [rX], []⟩ false false = .ok o ∧
      LogLine.warning (authWarnLine rX.uri) ∈ o.log :=
  claim_C6 cli ⟨some [rX], []⟩ (Mapping.make "http://e.org/s/" "/dst") [] [rX] rX false
    rfl (by decide) rfl (by decide) (by decide)

/-- Claim C2, counterexample: the scenario-A baseline run logs two status
lines, not one, and the NOT IN SYNC line is worded with "to create" /
"to update" / "to delete", not "created=N, updated=N, deleted=N". -/
theorem claim_C2_counterexample :
    statusLines (outcomeLog (cli.baseline_or_audit ⟨some [rA, rB, rC], []⟩ false false)) =
      ["Status: NOT IN SYNC (same=0, to create=3, to update=0, to delete=0)",
       "Status: SYNCED (same=0, created=3, updated=0, deleted=0)"] ∧
    (statusLines (outcomeLog (cli.baseline_or_audit ⟨some [rA, rB, rC], []⟩
      false false))).length ≠ 1 := by
  constructor
  · decide
  · decide

/-- Claim C2 as amended: every successful run logs an audit-phase status line
'Status: q (same=N, to create=N, to update=N, to delete=N)' whose qualifier
is IN SYNC exactly when nothing is pending; a non-audit run with pending
changes logs a second line 'Status: q (same=N, created=N, updated=N,
deleted=N)' whose qualifier is SYNCED exactly when no changes remain beyond
those applied during the run. -/
theorem claim_C2_amended (c : Client) (w : World) (a d : Bool) (m : Mapping)
    (tl : List Mapping) (src : List Resource) (o : BaselineOutcome)
    (hm : c.mappings = m :: tl) (hns : m.notSafe = false) (hs : w.srcList = some src)
    (ho : c.baseline_or_audit w a d = .ok o) :
    statusLines o.log =
      (if (a || ((computeDiff (c.checksum && hasMd5 src) src w.dstList).created.length +
          (computeDiff (c.checksum && hasMd5 src) src w.dstList).updated.length +
          (computeDiff (c.checksum && hasMd5 src) src w.dstList).deleted.length == 0)) = true
       then
        [auditStatusLine
          (if ((computeDiff (c.checksum && hasMd5 src) src w.dstList).created.length +
               (computeDiff (c.checksum && hasMd5 src) src w.dstList).updated.length +
               (computeDiff (c.checksum && hasMd5 src) src w.dstList).deleted.length == 0)
           then "IN SYNC" else "NOT IN SYNC")
          (computeDiff (c.checksum && hasMd5 src) src w.dstList).same.length
          (computeDiff (c.checksum && hasMd5 src) src w.dstList).created.length
          (computeDiff (c.checksum && hasMd5 src) src w.dstList).updated.length
          (computeDiff (c.checksum && hasMd5 src) src w.dstList).deleted.length]
       else
        [auditStatusLine
          (if ((computeDiff (c.checksum && hasMd5 src) src w.dstList).created.length +
               (computeDiff (c.checksum && hasMd5 src) src w.dstList).updated.length +
               (computeDiff (c.checksum && hasMd5 src) src w.dstList).deleted.length == 0)
           then "IN SYNC" else "NOT IN SYNC")
          (computeDiff (c.checksum && hasMd5 src) src w.dstList).same.length
          (computeDiff (c.checksum && hasMd5 src) src w.dstList).created.length
          (computeDiff (c.checksum && hasMd5 src) src w.dstList).updated.length
          (computeDiff (c.checksum && hasMd5 src) src w.dstList).deleted.length,
         applyStatusLine
          (if (if d then 0
               else (computeDiff (c.checksum && hasMd5 src) src w.dstList).deleted.length)
              == 0 then "SYNCED" else "NOT IN SYNC")
          (computeDiff (c.checksum && hasMd5 src) src w.dstList).same.length
          (computeDiff (c.checksum && hasMd5 src) src w.dstList).created.length
          (computeDiff (c.checksum && hasMd5 src) src w.dstList).updated.length
          (if d then (computeDiff (c.checksum && hasMd5 src) src w.dstList).deleted.length
           else 0)]) := by
  obtain ⟨hcl, hbranch⟩ := baseline_ok_shape c w a d o m tl src hm hns hs ho
  rcases hbranch with ⟨hap, hoe⟩ | ⟨hap, hoe⟩
  · rw [if_pos hap, hoe]
    rfl
  · rw [if_neg (by rw [hap]; exact Bool.false_ne_true), hoe]
    show statusLines (LogLine.status _ :: (_ ++ [LogLine.status _])) = _
    rw [statusLines_cons_status, statusLines_append, statusLines_warnings,
        statusLines_cons_status]
    rfl

theorem claim_C2_amended_witness :
    statusLines oA.log = [auditStatusLine "NOT IN SYNC" 0 1 0 0] := by
  have h := claim_C2_amended cli ⟨some [rA], []⟩ true false
    (Mapping.make "http://e.org/s/" "/dst") [] [rA] oA rfl (by decide) rfl rfl
  rw [h]
  decide

/-- Claim C8: `incremental` fetches exactly the change events at or after
the given datetime, logs the read report with their count, applies them
in ascending changeDatetime order, and logs the CHANGES APPLIED status line
whose counts match the applied entry kinds. -/
theorem claim_C8 (c : Client) (w : IncWorld) (f : String) (m : Mapping)
    (tl : List Mapping) (hm : c.mappings = m :: tl) :
    ∃ o, c.incremental w f = .ok o ∧
      o.changesListed = (fetchChanges w.changeList f).length ∧
      o.created = countKind ((fetchChanges w.changeList f).insertionSort dtLe)
        ChangeKind.created ∧
      o.updated = countKind ((fetchChanges w.changeList f).insertionSort dtLe)
        ChangeKind.updated ∧
      o.deleted = countKind ((fetchChanges w.changeList f).insertionSort dtLe)
        ChangeKind.deleted ∧
      o.log = [LogLine.info (changeListReadLine (fetchChanges w.changeList f).length),
               LogLine.status (incStatusLine o.created o.updated o.deleted)] ∧
      o.dst = ((fetchChanges w.changeList f).insertionSort dtLe).foldl applyChange
        w.dstList ∧
      List.Sorted dtLe ((fetchChanges w.changeList f).insertionSort dtLe) ∧
      List.Perm ((fetchChanges w.changeList f).insertionSort dtLe)
        (fetchChanges w.changeList f) ∧
      (∀ r ∈ (fetchChanges w.changeList f).insertionSort dtLe,
        ∃ t, r.changeDatetime = some t ∧ strLe f t = true) := by
  unfold Client.incremental
  rw [hm]
  refine ⟨_, rfl, rfl, rfl, rfl, rfl, rfl, rfl, List.sorted_insertionSort dtLe _,
    List.perm_insertionSort dtLe _, ?_⟩
  intro r hrr
  have hmem : r ∈ fetchChanges w.changeList f :=
    (List.perm_insertionSort dtLe _).mem_iff.mp hrr
  unfold fetchChanges at hmem
  obtain ⟨hr2, hp⟩ := List.mem_filter.mp hmem
  cases hdt : r.changeDatetime with
  | none =>
    rw [hdt] at hp
    exact absurd hp (by exact Bool.false_ne_true)
  | some t =>
    rw [hdt] at hp
    exact ⟨t, rfl, hp⟩

theorem claim_C8_witness :
    ∃ o, cli.incremental chW "2015-01-01T01:01:01Z" = .ok o ∧
      o.log = [LogLine.info "Read source change list, 1 changes listed",
               LogLine.status "Status: CHANGES APPLIED (created=1, updated=0, deleted=0)"] := by
  obtain ⟨o, ho, h1, h2, h3, h4, h5, h6, h7, h8, h9⟩ := claim_C8 cli chW
    "2015-01-01T01:01:01Z" (Mapping.make "http://e.org/s/" "/dst") [] rfl
  refine ⟨o, ho, ?_⟩
  rw [h5, h2, h3, h4]
  decide

theorem run_on_converged (c : Client) (w : World) (m : Mapping) (tl : List Mapping)
    (src D : List Resource) (d : Bool)
    (hm : c.mappings = m :: tl) (hns : m.notSafe = false)
    (hs : w.srcList = some src) (hD : w.dstList = D) (hne : src ≠ [])
    (hmatch : ∀ r ∈ src, ∃ x, findRes D r.uri = some x ∧
      resourcesDiffer (c.checksum && hasMd5 src) r x = false)
    (hdel : d = true → ∀ x ∈ D, (findRes src x.uri).isSome = true) :
    ∃ o, c.baseline_or_audit w false d = .ok o ∧ o.summary.same = src.length ∧
      o.summary.created = 0 ∧ o.summary.updated = 0 ∧ o.summary.deleted = 0 ∧
      o.dst = D := by
  have hne2 : (src.isEmpty && w.dstList.isEmpty && !false) = false := by
    cases hsrc0 : src with
    | nil => exact absurd hsrc0 hne
    | cons x xs => rfl
  rw [baseline_unfold c m tl src w false d hm hns hs hne2, hD]
  simp only [Bool.false_or]
  have hcre : (computeDiff (c.checksum && hasMd5 src) src D).created = [] := by
    apply List.filter_eq_nil_iff.mpr
    intro r hr hpr
    obtain ⟨x, hx, _⟩ := hmatch r hr
    rw [hx] at hpr
    exact absurd hpr (by exact Bool.false_ne_true)
  have hupd : (computeDiff (c.checksum && hasMd5 src) src D).updated = [] := by
    apply List.filter_eq_nil_iff.mpr
    intro r hr hpr
    obtain ⟨x, hx, hdif⟩ := hmatch r hr
    rw [hx] at hpr
    have h2 : resourcesDiffer (c.checksum && hasMd5 src) r x = true := hpr
    rw [hdif] at h2
    exact Bool.false_ne_true h2
  have hsame : (computeDiff (c.checksum && hasMd5 src) src D).same = src := by
    apply List.filter_eq_self.mpr
    intro r hr
    obtain ⟨x, hx, hdif⟩ := hmatch r hr
    rw [hx]
    show (!resourcesDiffer (c.checksum && hasMd5 src) r x) = true
    rw [hdif]
    rfl
  cases d with
  | true =>
    have hdel2 : (computeDiff (c.checksum && hasMd5 src) src D).deleted = [] := by
      apply List.filter_eq_nil_iff.mpr
      intro x hx hpx
      have hsome := hdel rfl x hx
      cases hfs : findRes src x.uri with
      | none =>
        rw [hfs] at hsome
        exact absurd hsome (by exact Bool.false_ne_true)
      | some y =>
        rw [hfs] at hpx
        exact absurd hpx (by exact Bool.false_ne_true)
    rw [hcre, hupd, hsame, hdel2]
    simp only [List.length_nil, Nat.add_zero]
    rw [if_pos (show ((0 : Nat) == 0) = true from rfl)]
    exact ⟨_, rfl, rfl, rfl, rfl, rfl, rfl⟩
  | false =>
    rw [hcre, hupd, hsame]
    simp only [List.length_nil, Nat.add_zero, Nat.zero_add]
    by_cases hp : ((computeDiff (c.checksum && hasMd5 src) src D).deleted.length == 0) = true
    · rw [if_pos hp]
      exact ⟨_, rfl, rfl, rfl, rfl, beq_iff_eq.mp hp, rfl⟩
    · rw [Bool.not_eq_true] at hp
      rw [if_neg (by rw [hp]; exact Bool.false_ne_true)]
      rw [if_neg (by simp)]
      have happly : applyBaseline D (computeDiff (c.checksum && hasMd5 src) src D)
          false = D := by
        unfold applyBaseline
        rw [hupd, hcre]
        simp only [List.foldl_nil, Bool.false_eq_true, if_false]
      rw [happly]
      exact ⟨_, rfl, rfl, rfl, rfl, rfl, rfl⟩

theorem applyBaseline_match (cs : Bool) (src dst : List Resource) (d : Bool)
    (hnd : (src.map Resource.uri).Nodup) :
    ∀ r ∈ src, ∃ x,
      findRes (applyBaseline dst (computeDiff cs src dst) d) r.uri = some x ∧
      resourcesDiffer cs r x = false := by
  unfold applyBaseline
  intro r hr
  cases hfr : findRes dst r.uri with
  | none =>
    have hrc : r ∈ (computeDiff cs src dst).created :=
      List.mem_filter.mpr ⟨hr, by rw [hfr]; rfl⟩
    have hndc : ((computeDiff cs src dst).created.map Resource.uri).Nodup :=
      List.Nodup.sublist (List.Sublist.map Resource.uri (List.filter_sublist src)) hnd
    exact ⟨r, findRes_foldl_upsert_mem (computeDiff cs src dst).created _ r hndc hrc,
      resourcesDiffer_self cs r⟩
  | some x =>
    have hnotc : ∀ s ∈ (computeDiff cs src dst).created, (r.uri == s.uri) = false := by
      intro s hsc
      rw [beq_eq_false_iff_ne]
      intro he
      obtain ⟨hss, hsp⟩ := List.mem_filter.mp hsc
      rw [← he, hfr] at hsp
      exact absurd hsp (by exact Bool.false_ne_true)
    by_cases hdif : resourcesDiffer cs r x = true
    · have hru : r ∈ (computeDiff cs src dst).updated :=
        List.mem_filter.mpr ⟨hr, by rw [hfr]; exact hdif⟩
      have hndu : ((computeDiff cs src dst).updated.map Resource.uri).Nodup :=
        List.Nodup.sublist (List.Sublist.map Resource.uri (List.filter_sublist src)) hnd
      refine ⟨r, ?_, resourcesDiffer_self cs r⟩
      rw [findRes_foldl_upsert_not_mem (computeDiff cs src dst).created _ r.uri hnotc]
      exact findRes_foldl_upsert_mem (computeDiff cs src dst).updated _ r hndu hru
    · rw [Bool.not_eq_true] at hdif
      have hnotu : ∀ s ∈ (computeDiff cs src dst).updated, (r.uri == s.uri) = false := by
        intro s hsu
        rw [beq_eq_false_iff_ne]
        intro he
        obtain ⟨hss, hsp⟩ := List.mem_filter.mp hsu
        rw [← he, hfr] at hsp
        have hseq : s = r := List.inj_on_of_nodup_map hnd hss hr he.symm
        rw [hseq] at hsp
        have h2 : resourcesDiffer cs r x = true := hsp
        rw [hdif] at h2
        exact Bool.false_ne_true h2
      have hbase : findRes (if d = true then
          (computeDiff cs src dst).deleted.foldl
            (fun acc r2 => removeUri acc r2.uri) dst
          else dst) r.uri = some x := by
        cases d with
        | false => exact hfr
        | true =>
          show findRes ((computeDiff cs src dst).deleted.foldl
            (fun acc r2 => removeUri acc r2.uri) dst) r.uri = some x
          rw [findRes_foldl_remove_not_mem (computeDiff cs src dst).deleted dst r.uri ?_]
          · exact hfr
          · intro s hsd he
            obtain ⟨hsdst, hsp⟩ := List.mem_filter.mp hsd
            rw [← he] at hsp
            have hsm := findRes_isSome_of_mem hr
            cases hfs : findRes src r.uri with
            | none =>
              rw [hfs] at hsm
              exact absurd hsm (by exact Bool.false_ne_true)
            | some y =>
              rw [hfs] at hsp
              exact absurd hsp (by exact Bool.false_ne_true)
      refine ⟨x, ?_, hdif⟩
      rw [findRes_foldl_upsert_not_mem (computeDiff cs src dst).created _ r.uri hnotc,
          findRes_foldl_upsert_not_mem (computeDiff cs src dst).updated _ r.uri hnotu]
      exact hbase

theorem applyBaseline_dst_sub (cs : Bool) (src dst : List Resource) :
    ∀ x ∈ applyBaseline dst (computeDiff cs src dst) true,
      (findRes src x.uri).isSome = true := by
  unfold applyBaseline
  intro x hx
  rcases mem_foldl_upsert hx with hx1 | hx1
  · rcases mem_foldl_upsert hx1 with hx2 | hx2
    · rw [if_pos rfl] at hx2
      obtain ⟨hxd, hxne⟩ := mem_foldl_remove hx2
      cases hfs : findRes src x.uri with
      | some y => rfl
      | none =>
        exfalso
        have hxdel : x ∈ (computeDiff cs src dst).deleted :=
          List.mem_filter.mpr ⟨hxd, by rw [hfs]; rfl⟩
        exact hxne x hxdel rfl
    · exact findRes_isSome_of_mem (List.mem_filter.mp hx2).1
  · exact findRes_isSome_of_mem (List.mem_filter.mp hx1).1

/-- Claim C1 (amended): for a nonempty source, a second baseline run on the
destination state the first run produced reports created=updated=deleted=0
and same equal to the total number of source resources, and copies nothing
(the destination is unchanged). -/
theorem claim_C1 (c : Client) (w : World) (m : Mapping) (tl : List Mapping)
    (src : List Resource) (d : Bool) (o1 : BaselineOutcome)
    (hm : c.mappings = m :: tl) (hns : m.notSafe = false)
    (hs : w.srcList = some src) (hne : src ≠ [])
    (hnd : (src.map Resource.uri).Nodup)
    (h1 : c.baseline_or_audit w false d = .ok o1) :
    ∃ o2, o1.client.baseline_or_audit ⟨some src, o1.dst⟩ false d = .ok o2 ∧
      o2.summary.same = src.length ∧ o2.summary.created = 0 ∧
      o2.summary.updated = 0 ∧ o2.summary.deleted = 0 ∧ o2.dst = o1.dst := by
  obtain ⟨hcl, hbranch⟩ := baseline_ok_shape c w false d o1 m tl src hm hns hs h1
  have hm2 : o1.client.mappings = m :: tl := by
    rw [hcl]
    exact hm
  have hcs2 : (o1.client.checksum && hasMd5 src) = (c.checksum && hasMd5 src) := by
    rw [hcl]
    show ((c.checksum && hasMd5 src) && hasMd5 src) = (c.checksum && hasMd5 src)
    rw [Bool.and_assoc, Bool.and_self]
  rcases hbranch with ⟨hap, hoe⟩ | ⟨hap, hoe⟩
  · rw [Bool.false_or] at hap
    have hp0 := beq_iff_eq.mp hap
    have hc0 : (computeDiff (c.checksum && hasMd5 src) src w.dstList).created = [] :=
      List.length_eq_zero.mp (by omega)
    have hu0 : (computeDiff (c.checksum && hasMd5 src) src w.dstList).updated = [] :=
      List.length_eq_zero.mp (by omega)
    have hd0 : (computeDiff (c.checksum && hasMd5 src) src w.dstList).deleted = [] :=
      List.length_eq_zero.mp (by omega)
    have hdst : o1.dst = w.dstList := by rw [hoe]
    refine run_on_converged o1.client ⟨some src, o1.dst⟩ m tl src o1.dst d hm2 hns
      rfl rfl hne ?_ ?_
    · intro r hr
      cases hfr : findRes w.dstList r.uri with
      | none =>
        exfalso
        have hrc : r ∈ (computeDiff (c.checksum && hasMd5 src) src w.dstList).created :=
          List.mem_filter.mpr ⟨hr, by rw [hfr]; rfl⟩
        rw [hc0] at hrc
        cases hrc
      | some x =>
        refine ⟨x, by rw [hdst]; exact hfr, ?_⟩
        by_cases hdif : resourcesDiffer (c.checksum && hasMd5 src) r x = true
        · exfalso
          have hru : r ∈ (computeDiff (c.checksum && hasMd5 src) src w.dstList).updated :=
            List.mem_filter.mpr ⟨hr, by rw [hfr]; exact hdif⟩
          rw [hu0] at hru
          cases hru
        · rw [Bool.not_eq_true] at hdif
          rw [hcs2]
          exact hdif
    · intro hdt x hx
      rw [hdst] at hx
      cases hfs : findRes src x.uri with
      | some y => rfl
      | none =>
        exfalso
        have hxd : x ∈ (computeDiff (c.checksum && hasMd5 src) src w.dstList).deleted :=
          List.mem_filter.mpr ⟨hx, by rw [hfs]; rfl⟩
        rw [hd0] at hxd
        cases hxd
  · have hdst : o1.dst = applyBaseline w.dstList
        (computeDiff (c.checksum && hasMd5 src) src w.dstList) d := by rw [hoe]
    refine run_on_converged o1.client ⟨some src, o1.dst⟩ m tl src o1.dst d hm2 hns
      rfl rfl hne ?_ ?_
    · intro r hr
      obtain ⟨x, hx1, hx2⟩ :=
        applyBaseline_match (c.checksum && hasMd5 src) src w.dstList d hnd r hr
      refine ⟨x, ?_, ?_⟩
      · rw [hdst]
        exact hx1
      · rw [hcs2]
        exact hx2
    · intro hdt x hx
      subst hdt
      rw [hdst] at hx
      exact applyBaseline_dst_sub (c.checksum && hasMd5 src) src w.dstList x hx

/-- Claim C1, counterexample: with an empty source list and a one-resource
destination, the first run succeeds (it deletes the extra resource), but the
second run on the converged pair fails with the zero-resources fatal error
instead of reporting all-zero counts. -/
theorem claim_C1_counterexample :
    cli.baseline_or_audit ⟨some [], [rA]⟩ false true = .ok o1e ∧
    cli.baseline_or_audit ⟨some [], o1e.dst⟩ false true =
      .error ⟨"No resources to sync"⟩ := ⟨rfl, rfl⟩

theorem claim_C1_witness :
    ∃ o2, o1w.client.baseline_or_audit ⟨some [rA, rB, rC], o1w.dst⟩ false true = .ok o2 ∧
      o2.summary.same = [rA, rB, rC].length ∧ o2.summary.created = 0 ∧
      o2.summary.updated = 0 ∧ o2.summary.deleted = 0 ∧ o2.dst = o1w.dst :=
  claim_C1 cli ⟨some [rA, rB, rC], []⟩ (Mapping.make "http://e.org/s/" "/dst") []
    [rA, rB, rC] true o1w rfl (by decide) rfl (by decide) (by decide) rfl

end Resync
